import Mathlib

/-!
Verification of the tenfem reference-element and local-assembly core.

The Python sources are embedded shallowly over exact rational arithmetic:
tensors become (nested) lists of rationals, batched tensor contractions become
list maps and zipWith sums, and fallible constructors and functions return
Except values.  Files of the repository that are only imported by the sources
under verification (the shape function tables, the Gauss quadrature tables,
the base mesh representation and the stiffness assembly used for the
preconditioner) are modelled from the specification text and are marked as
such in their doc comments.
-/

namespace Tenfem

/-- A two dimensional point: a pair of rational coordinates. -/
abbrev Point := ℚ × ℚ

/-- A finite element mesh: nodes are 2-D coordinates indexed by node id and
elements are tuples of node indices (triangle_element.py and
mesh_provider.py consume exactly these two arrays). -/
structure Mesh where
  nodes : List Point
  elements : List (List ℕ)

/-- Number of mesh nodes. -/
def Mesh.n_nodes (m : Mesh) : ℕ := m.nodes.length

/-- Number of mesh elements. -/
def Mesh.n_elements (m : Mesh) : ℕ := m.elements.length

/-- Modelled from the spec: shape_functions.py is not under src.  P1 shape
functions of spec section 4.2: the barycentric linear values 1-r-s, r, s and
the constant canonical gradients (-1,-1), (1,0), (0,1).  Returns the value
list paired with the two gradient component lists (d/dr first, d/ds second). -/
def p1_shape_fn (r s : ℚ) : List ℚ × (List ℚ × List ℚ) :=
  ([1 - r - s, r, s], ([-1, 1, 0], [-1, 0, 1]))

/-- Modelled from the spec: shape_functions.py is not under src.  P2 shape
functions of spec section 4.2: the classical quadratic Lagrange basis on the
vertices (0,0), (1,0), (0,1) followed by the edge midpoints (1/2,0),
(1/2,1/2), (0,1/2), with the canonical gradients obtained by differentiating
those polynomials in r and s. -/
def p2_shape_fn (r s : ℚ) : List ℚ × (List ℚ × List ℚ) :=
  let l0 := 1 - r - s
  ([l0 * (2 * l0 - 1), r * (2 * r - 1), s * (2 * s - 1),
    4 * l0 * r, 4 * r * s, 4 * l0 * s],
   ([1 - 4 * l0, 4 * r - 1, 0, 4 * (l0 - r), 4 * s, -(4 * s)],
    [1 - 4 * l0, 0, 4 * s - 1, -(4 * r), 4 * r, 4 * (l0 - s)]))

/-- Modelled from the spec: gaussian_quadrature.py is not under src.  The
fixed order 2 Gauss table on the canonical triangle: the midpoint rule, with
weights summing to 1 (the weight convention of spec section 3, normalized by
the division by 2 inside the assemblers). -/
def gaussTableOrder2 : List ℚ × List Point :=
  ([1/3, 1/3, 1/3], [(1/2, 0), (1/2, 1/2), (0, 1/2)])

/-- Modelled from the spec: gaussian_quadrature.py is not under src.  The
fixed order 4 Gauss table on the canonical triangle: a fixed higher order
rule with weights summing to 1 and all nodes inside the canonical triangle. -/
def gaussTableOrder4 : List ℚ × List Point :=
  ([-9/16, 25/48, 25/48, 25/48],
   [(1/3, 1/3), (1/5, 1/5), (3/5, 1/5), (1/5, 3/5)])

/-- Modelled from the spec: gaussian_quadrature.py is not under src.  Spec
section 4.1: return the fixed weight and node tables for order 2 or order 4
and fail with an unsupported order error for every other order. -/
def gauss_quad_nodes_and_weights (order : ℕ) : Except String (List ℚ × List Point) :=
  if order = 2 then .ok gaussTableOrder2
  else if order = 4 then .ok gaussTableOrder4
  else .error "Unsupported quadrature order for TriangleElement"

/-- The state a TriangleElement fixes at construction (triangle_element.py,
TriangleElement.__init__): the polynomial degree together with the derived
element_dim and quadrature_order. -/
structure TriangleElement where
  degree : ℕ
  element_dim : ℕ
  quadrature_order : ℕ
  deriving DecidableEq

/-- Embeds TriangleElement.__init__ (triangle_element.py lines 43 to 54):
degree 1 selects the P1 shape functions, quadrature order 2 and element_dim 3;
degree 2 selects P2, order 4 and element_dim 6; any other degree raises
NotImplementedError. -/
def TriangleElement.init (degree : ℕ) : Except String TriangleElement :=
  if degree = 1 then .ok ⟨1, 3, 2⟩
  else if degree = 2 then .ok ⟨2, 6, 4⟩
  else .error "Only degree p in [1, 2] polynomials currently supported for TriangleElement"

/-- The shape function field set by __init__: p1_shape_fn for degree 1 and
p2_shape_fn for degree 2. -/
def TriangleElement.shape_function (e : TriangleElement) :
    ℚ → ℚ → List ℚ × (List ℚ × List ℚ) :=
  if e.degree = 1 then p1_shape_fn else p2_shape_fn

/-- Elementwise product followed by a sum over the last axis: embeds
tf.reduce_sum(a * b, axis=-1) for two aligned vectors. -/
def dot (a b : List ℚ) : ℚ := (List.zipWith (fun x y => x * y) a b).sum

/-- Embeds the body of TriangleElement.isomap (triangle_element.py lines 130
to 152) at a single canonical coordinate: shape values and canonical
gradients, the four Jacobian entries as reduced sums of the gradients against
the node coordinate components, the determinant j11 j22 - j12 j21, and the
physical gradients obtained by dividing by the determinant.  The division is
unconditional, exactly as in the source: there is no degeneracy check.  In
IEEE arithmetic a zero determinant produces Inf or NaN; in this rational
model division by zero yields zero. -/
def isomapAt (e : TriangleElement) (nodes : List Point) (cc : Point) :
    List ℚ × ((List ℚ × List ℚ) × ℚ) :=
  let r := cc.1
  let s := cc.2
  let sf := e.shape_function r s
  let shape_fn_vals := sf.1
  let shape_fn_grad := sf.2
  let x := nodes.map Prod.fst
  let y := nodes.map Prod.snd
  let j11 := dot shape_fn_grad.1 x
  let j12 := dot shape_fn_grad.1 y
  let j21 := dot shape_fn_grad.2 x
  let j22 := dot shape_fn_grad.2 y
  let jacobian_det := j11 * j22 - j12 * j21
  let dSdx := List.zipWith (fun gr gs => (j22 * gr - j12 * gs) / jacobian_det)
    shape_fn_grad.1 shape_fn_grad.2
  let dSdy := List.zipWith (fun gr gs => (-j21 * gr + j11 * gs) / jacobian_det)
    shape_fn_grad.1 shape_fn_grad.2
  (shape_fn_vals, ((dSdx, dSdy), jacobian_det))

/-- Embeds TriangleElement.isomap over a list of canonical coordinates:
returns the per coordinate shape value lists, the pushforward gradients
stacked with the x gradient first (a two element outer list mirroring
tf.concat on axis 0) and the per coordinate Jacobian determinants. -/
def isomap (e : TriangleElement) (nodes : List Point) (ccs : List Point) :
    List (List ℚ) × (List (List (List ℚ)) × List ℚ) :=
  let res := ccs.map (isomapAt e nodes)
  (res.map (fun t => t.1),
   ([res.map (fun t => t.2.1.1), res.map (fun t => t.2.1.2)],
    res.map (fun t => t.2.2)))

/-- Embeds tf.gather(mesh.nodes, mesh.elements): the per element list of
node coordinates. -/
def gather (nodes : List Point) (elements : List (List ℕ)) : List (List Point) :=
  elements.map (fun el => el.map (fun i => nodes.getD i (0, 0)))

/-- Embeds TriangleElement.get_quadrature_nodes (triangle_element.py lines 70
to 89): fetch the canonical quadrature nodes, gather the node coordinates per
element, evaluate the shape values at each quadrature node and take the
weighted sum of the element node coordinates. -/
def TriangleElement.get_quadrature_nodes (e : TriangleElement) (mesh : Mesh) :
    Except String (List (List Point)) := do
  let (_, quad_nodes) ← gauss_quad_nodes_and_weights e.quadrature_order
  let element_nodes := gather mesh.nodes mesh.elements
  pure (element_nodes.map (fun en =>
    quad_nodes.map (fun qn =>
      let vals := (e.shape_function qn.1 qn.2).1
      ((List.zipWith (fun v p => v * p.1) vals en).sum,
       (List.zipWith (fun v p => v * p.2) vals en).sum))))

/-- Embeds TriangleElement.orientate_element_indices (triangle_element.py
lines 154 to 181): for element_dim 3 the elements are returned unchanged; for
element_dim 6 each element row is rebuilt by concatenating the entries at
positions 0, 5, 1, 3, 2, 4; every other element_dim raises
NotImplementedError. -/
def TriangleElement.orientate_element_indices (e : TriangleElement) (mesh : Mesh) :
    Except String (List (List ℕ)) :=
  if e.element_dim = 3 then .ok mesh.elements
  else if e.element_dim = 6 then
    .ok (mesh.elements.map (fun el =>
      [el.getD 0 0, el.getD 5 0, el.getD 1 0, el.getD 3 0, el.getD 2 0, el.getD 4 0]))
  else .error "Only linear and quadratic elements currently implemented."

/-- The combined quadrature weight formed by the convection assembler
(assemble_local_convection_matrix.py line 41): wxarea = jac_det * wts / 2 per
quadrature node, computed from the signed Jacobian determinant. -/
def wxarea (jac_det wts : List ℚ) : List ℚ :=
  List.zipWith (fun d w => d * w / 2) jac_det wts

/-- Embeds assemble_local_convection_matrix
(assemble_local_convection_matrix.py): the element nodes are gathered, the
quadrature rule fetched, isomap run over the elements and the combined weight
wxarea formed; the source function body then ends, at a comment, without a
return statement, so the Python call returns None, embedded here as the final
value none. -/
def assemble_local_convection_matrix (transport_vector_field : List (List (List ℚ)))
    (mesh : Mesh) (element : TriangleElement) :
    Except String (Option (List (List (List ℚ)))) := do
  let element_nodes := gather mesh.nodes mesh.elements
  let (wts, quad_nodes) ← gauss_quad_nodes_and_weights element.quadrature_order
  let per_element := element_nodes.map (fun en => isomap element en quad_nodes)
  let _pf_shape_fn_grad := per_element.map (fun t => t.2.1)
  let _jac_det := per_element.map (fun t => t.2.2)
  let _wxarea := per_element.map (fun t => wxarea t.2.2 wts)
  let _ := transport_vector_field
  pure none

/-- Modelled from the spec: the mesh classes are not under src.  Spec section
6 lists the mesh data consumed and produced as the nodes and elements arrays,
so the tensor representation of a mesh is that pair. -/
def Mesh.get_tensor_repr (m : Mesh) : List Point × List (List ℕ) :=
  (m.nodes, m.elements)

/-- The width of the last axis of mesh.elements, i.e.
tf.shape(mesh.elements)[-1] for the rectangular elements array. -/
def Mesh.elements_width (m : Mesh) : ℕ := (m.elements.headD []).length

/-- The state of a constructed MeshProvider layer (mesh_provider.py lines 36
to 52). -/
structure MeshProvider where
  mesh : Mesh
  padding_element : ℤ
  n_nodes : ℕ
  n_elements : ℕ
  return_precond_matrix : Bool
  precond_matrix : Option (List (List ℚ))

/-- Embeds MeshProvider.__init__ (mesh_provider.py lines 36 to 52): first the
shape check of mesh.elements against the element_dim of the reference
element, raising ValueError on mismatch; only afterwards, and only when
return_precond_matrix is set, is the preconditioning matrix assembled.  The
stiffness assembly behind _build_precond_matrix is not under src, so it is
supplied as the function argument build_precond (modelled from the spec:
numerical work that the source performs strictly after the shape check). -/
def MeshProvider.init (mesh : Mesh) (reference_element : TriangleElement)
    (padding_element : ℤ) (return_precond_matrix : Bool)
    (build_precond : Mesh → TriangleElement → List (List ℚ)) :
    Except String MeshProvider :=
  if mesh.elements_width ≠ reference_element.element_dim then
    .error "mesh.elements shape does not match reference_element.element_dim"
  else
    .ok ⟨mesh, padding_element, mesh.nodes.length, mesh.elements.length,
      return_precond_matrix,
      if return_precond_matrix then some (build_precond mesh reference_element)
      else none⟩

/-- The value returned by MeshProvider.call: either the mesh tensor
representation alone or paired with the preconditioning matrix. -/
inductive MeshProviderOutput where
  | reprOnly : List Point × List (List ℕ) → MeshProviderOutput
  | withPrecond : List Point × List (List ℕ) → Option (List (List ℚ)) → MeshProviderOutput
  deriving DecidableEq

/-- Embeds MeshProvider.call (mesh_provider.py lines 59 to 64): the inputs
argument is never read; the result is built from the stored mesh and, when
return_precond_matrix is set, the stored preconditioning matrix. -/
def MeshProvider.call (self : MeshProvider) (inputs : List ℚ) : MeshProviderOutput :=
  let mesh_tensor_repr := self.mesh.get_tensor_repr
  let _ := inputs
  if self.return_precond_matrix then
    .withPrecond mesh_tensor_repr self.precond_matrix
  else
    .reprOnly mesh_tensor_repr

/-- The Jacobian entries of spec section 4.3 step 2, written from the spec:
the sum over the local nodes of a canonical gradient component against one
coordinate of the element node positions. -/
def specJ (g : List ℚ) (nodes : List Point) (coord : Point → ℚ) : ℚ :=
  ∑ i ∈ Finset.range nodes.length, g.getD i 0 * coord (nodes.getD i (0, 0))

/-- The property claim C4 states for isomap, written from the spec formulas
of section 4.3: at the canonical coordinate with index q, isomap returns the
shape values, the Jacobian determinant J11 J22 - J12 J21 with the J entries
the sums of canonical gradients against node coordinates, and the physical
gradients of the inverse Jacobian pushforward, stacked with the x gradient
first. -/
def IsomapSpecAt (e : TriangleElement) (nodes ccs : List Point) (q : ℕ) : Prop :=
  let out := isomap e nodes ccs
  let cc := ccs.getD q (0, 0)
  let sf := e.shape_function cc.1 cc.2
  let j11 := specJ sf.2.1 nodes Prod.fst
  let j12 := specJ sf.2.1 nodes Prod.snd
  let j21 := specJ sf.2.2 nodes Prod.fst
  let j22 := specJ sf.2.2 nodes Prod.snd
  let det := j11 * j22 - j12 * j21
  out.1.getD q [] = sf.1 ∧
  out.2.1.length = 2 ∧
  out.2.2.getD q 0 = det ∧
  ∀ i, i < nodes.length →
    ((out.2.1.getD 0 []).getD q []).getD i 0 =
      (j22 * sf.2.1.getD i 0 - j12 * sf.2.2.getD i 0) / det ∧
    ((out.2.1.getD 1 []).getD q []).getD i 0 =
      (-j21 * sf.2.1.getD i 0 + j11 * sf.2.2.getD i 0) / det

/-- The property claim C7 states for get_quadrature_nodes, written from the
spec (section 4.3): the call succeeds, the result has one row per mesh
element with one entry per canonical quadrature node, and each entry is the
weighted sum over the local nodes of the shape values at that quadrature node
against the gathered element node coordinates. -/
def QuadratureNodesSpec (e : TriangleElement) (m : Mesh) : Prop :=
  ∃ wn, gauss_quad_nodes_and_weights e.quadrature_order = .ok wn ∧
  ∃ out, e.get_quadrature_nodes m = .ok out ∧
    out.length = m.n_elements ∧
    ∀ el, el < m.elements.length →
      (out.getD el []).length = wn.2.length ∧
      ∀ q, q < wn.2.length →
        (out.getD el []).getD q (0, 0) =
          (let qn := wn.2.getD q (0, 0)
           let vals := (e.shape_function qn.1 qn.2).1
           let row := m.elements.getD el []
           (∑ k ∈ Finset.range row.length,
              vals.getD k 0 * (m.nodes.getD (row.getD k 0) (0, 0)).1,
            ∑ k ∈ Finset.range row.length,
              vals.getD k 0 * (m.nodes.getD (row.getD k 0) (0, 0)).2))

/-! List plumbing lemmas shared by several claims. -/

theorem sum_zipWith {α β : Type} (f : α → β → ℚ) (da : α) (db : β)
    (a : List α) (b : List β) :
    (List.zipWith f a b).sum =
      ∑ i ∈ Finset.range (min a.length b.length), f (a.getD i da) (b.getD i db) := by
  induction a generalizing b with
  | nil => simp
  | cons x xs ih =>
    cases b with
    | nil => simp
    | cons y ys =>
      have hmin : min (x :: xs).length (y :: ys).length =
          min xs.length ys.length + 1 := by
        simp only [List.length_cons]; omega
      rw [List.zipWith_cons_cons, List.sum_cons, ih ys, hmin, Finset.sum_range_succ']
      simp [add_comm]

theorem getD_zipWith {α β γ : Type} [Inhabited γ] (f : α → β → γ) (a : List α)
    (b : List β) (i : ℕ) (da : α) (db : β) (dc : γ)
    (ha : i < a.length) (hb : i < b.length) :
    (List.zipWith f a b).getD i dc = f (a.getD i da) (b.getD i db) := by
  induction a generalizing b i with
  | nil => simp at ha
  | cons x xs ih =>
    cases b with
    | nil => simp at hb
    | cons y ys =>
      cases i with
      | zero => simp
      | succ n =>
        simp only [List.zipWith_cons_cons, List.getD_cons_succ]
        exact ih ys n (by simpa using ha) (by simpa using hb)

theorem getD_map_of_lt {α β : Type} (f : α → β) (l : List α) (i : ℕ)
    (h : i < l.length) (d : α) (d' : β) :
    (l.map f).getD i d' = f (l.getD i d) := by
  have h' : i < (l.map f).length := by simpa using h
  rw [List.getD_eq_getElem l d h, List.getD_eq_getElem (l.map f) d' h',
    List.getElem_map]

theorem init_inv (d : ℕ) (e : TriangleElement)
    (he : TriangleElement.init d = .ok e) :
    d = 1 ∧ e = ⟨1, 3, 2⟩ ∨ d = 2 ∧ e = ⟨2, 6, 4⟩ := by
  unfold TriangleElement.init at he
  split_ifs at he with h1 h2
  · exact Or.inl ⟨h1, (Except.ok.inj he).symm⟩
  · exact Or.inr ⟨h2, (Except.ok.inj he).symm⟩

theorem dot_map (g : List ℚ) (nodes : List Point) (f : Point → ℚ)
    (h : g.length = nodes.length) :
    dot g (nodes.map f) = specJ g nodes f := by
  simp only [dot, specJ]
  rw [sum_zipWith (fun x y => x * y) 0 (0 : ℚ)]
  have hm : min g.length (nodes.map f).length = nodes.length := by
    simp [h]
  rw [hm]
  refine Finset.sum_congr rfl (fun i hi => ?_)
  rw [getD_map_of_lt f nodes i (Finset.mem_range.mp hi) (0, 0) 0]

theorem isomapAt_formulas (e : TriangleElement) (nodes : List Point) (cc : Point)
    (hgr : (e.shape_function cc.1 cc.2).2.1.length = nodes.length)
    (hgs : (e.shape_function cc.1 cc.2).2.2.length = nodes.length) :
    (isomapAt e nodes cc).1 = (e.shape_function cc.1 cc.2).1 ∧
    (isomapAt e nodes cc).2.2 =
      specJ (e.shape_function cc.1 cc.2).2.1 nodes Prod.fst *
        specJ (e.shape_function cc.1 cc.2).2.2 nodes Prod.snd -
      specJ (e.shape_function cc.1 cc.2).2.1 nodes Prod.snd *
        specJ (e.shape_function cc.1 cc.2).2.2 nodes Prod.fst ∧
    ∀ i, i < nodes.length →
      ((isomapAt e nodes cc).2.1.1.getD i 0 =
        (specJ (e.shape_function cc.1 cc.2).2.2 nodes Prod.snd *
            (e.shape_function cc.1 cc.2).2.1.getD i 0 -
          specJ (e.shape_function cc.1 cc.2).2.1 nodes Prod.snd *
            (e.shape_function cc.1 cc.2).2.2.getD i 0) /
          (specJ (e.shape_function cc.1 cc.2).2.1 nodes Prod.fst *
            specJ (e.shape_function cc.1 cc.2).2.2 nodes Prod.snd -
          specJ (e.shape_function cc.1 cc.2).2.1 nodes Prod.snd *
            specJ (e.shape_function cc.1 cc.2).2.2 nodes Prod.fst)) ∧
      ((isomapAt e nodes cc).2.1.2.getD i 0 =
        (-specJ (e.shape_function cc.1 cc.2).2.2 nodes Prod.fst *
            (e.shape_function cc.1 cc.2).2.1.getD i 0 +
          specJ (e.shape_function cc.1 cc.2).2.1 nodes Prod.fst *
            (e.shape_function cc.1 cc.2).2.2.getD i 0) /
          (specJ (e.shape_function cc.1 cc.2).2.1 nodes Prod.fst *
            specJ (e.shape_function cc.1 cc.2).2.2 nodes Prod.snd -
          specJ (e.shape_function cc.1 cc.2).2.1 nodes Prod.snd *
            specJ (e.shape_function cc.1 cc.2).2.2 nodes Prod.fst)) := by
  refine ⟨rfl, ?_, fun i hi => ⟨?_, ?_⟩⟩
  · show dot _ _ * dot _ _ - dot _ _ * dot _ _ = _
    rw [dot_map _ _ _ hgr, dot_map _ _ _ hgs, dot_map _ _ _ hgr, dot_map _ _ _ hgs]
  · show (List.zipWith _ _ _).getD i 0 = _
    rw [getD_zipWith _ _ _ i 0 0 0 (by omega) (by omega)]
    show (dot _ _ * _ - dot _ _ * _) / (dot _ _ * dot _ _ - dot _ _ * dot _ _) = _
    rw [dot_map _ _ _ hgr, dot_map _ _ _ hgs, dot_map _ _ _ hgr, dot_map _ _ _ hgs]
  · show (List.zipWith _ _ _).getD i 0 = _
    rw [getD_zipWith _ _ _ i 0 0 0 (by omega) (by omega)]
    show (-dot _ _ * _ + dot _ _ * _) / (dot _ _ * dot _ _ - dot _ _ * dot _ _) = _
    rw [dot_map _ _ _ hgr, dot_map _ _ _ hgs, dot_map _ _ _ hgr, dot_map _ _ _ hgs]

theorem isomap_components (e : TriangleElement) (nodes ccs : List Point) (q : ℕ)
    (hq : q < ccs.length) :
    (isomap e nodes ccs).1.getD q [] = (isomapAt e nodes (ccs.getD q (0, 0))).1 ∧
    (isomap e nodes ccs).2.1.length = 2 ∧
    ((isomap e nodes ccs).2.1.getD 0 []).getD q [] =
      (isomapAt e nodes (ccs.getD q (0, 0))).2.1.1 ∧
    ((isomap e nodes ccs).2.1.getD 1 []).getD q [] =
      (isomapAt e nodes (ccs.getD q (0, 0))).2.1.2 ∧
    (isomap e nodes ccs).2.2.getD q 0 = (isomapAt e nodes (ccs.getD q (0, 0))).2.2 := by
  refine ⟨?_, rfl, ?_, ?_, ?_⟩ <;>
    simp only [isomap, List.map_map, List.getD_cons_zero, List.getD_cons_succ] <;>
    rw [getD_map_of_lt _ ccs q hq (0, 0)] <;> rfl

/-! Claim theorems and their witnesses. -/

/-- Claim C1 (code bug evidence): on the unit right triangle mesh with a
degree one element and a constant transport field of shape [2, 1, 3], the
embedded assemble_local_convection_matrix evaluates to none: the source
function body ends without a return statement, so the call yields None
instead of the local convection matrix the claim describes. -/
theorem conv_matrix_returns_none :
    assemble_local_convection_matrix [[[1, 1, 1]], [[1, 1, 1]]]
      ⟨[(0, 0), (1, 0), (0, 1)], [[0, 1, 2]]⟩ ⟨1, 3, 2⟩ = .ok none := rfl

/-- Claim C3 (code bug evidence): evaluated at a fully degenerate element, all
three nodes at the origin, isomap silently returns a value rather than
reporting the degeneracy: the Jacobian determinant is zero at every
quadrature node and the unconditional division by it is still performed (the
rational model maps the division by zero to zero; IEEE arithmetic would
produce NaN or Inf). -/
theorem isomap_silent_on_zero_det :
    (isomap ⟨1, 3, 2⟩ [(0, 0), (0, 0), (0, 0)] gaussTableOrder2.2).2.2 = [0, 0, 0] ∧
    (isomap ⟨1, 3, 2⟩ [(0, 0), (0, 0), (0, 0)] gaussTableOrder2.2).2.1 =
      [[[0, 0, 0], [0, 0, 0], [0, 0, 0]], [[0, 0, 0], [0, 0, 0], [0, 0, 0]]] := by
  constructor <;>
    norm_num [isomap, isomapAt, dot, TriangleElement.shape_function, p1_shape_fn,
      gaussTableOrder2]

/-- Claim C5: constructing a TriangleElement with degree 1 yields element_dim
3 and quadrature_order 2, degree 2 yields element_dim 6 and quadrature_order
4, and construction succeeds exactly for degree 1 or 2, failing with an error
for every other degree. -/
theorem triangle_element_init_spec :
    TriangleElement.init 1 = .ok ⟨1, 3, 2⟩ ∧
    TriangleElement.init 2 = .ok ⟨2, 6, 4⟩ ∧
    ∀ d : ℕ, (∃ e, TriangleElement.init d = .ok e) ↔ d = 1 ∨ d = 2 := by
  refine ⟨rfl, rfl, fun d => ?_⟩
  unfold TriangleElement.init
  split_ifs with h1 h2
  · simp [h1]
  · simp [h2]
  · simp [h1, h2]

/-- Claim C2 (counterexample): for the clockwise unit triangle the Jacobian
determinant is negative and the combined quadrature weight computed by the
convection assembler differs from the absolute value form the claim states:
the code produces -1/6 where the claim demands 1/6. -/
theorem conv_weight_abs_counterexample :
    (wxarea ((isomap ⟨1, 3, 2⟩ [(0, 0), (0, 1), (1, 0)] gaussTableOrder2.2).2.2)
        gaussTableOrder2.1).getD 0 0 ≠
      |((isomap ⟨1, 3, 2⟩ [(0, 0), (0, 1), (1, 0)] gaussTableOrder2.2).2.2).getD 0 0| *
        gaussTableOrder2.1.getD 0 0 / 2 := by
  norm_num [wxarea, isomap, isomapAt, dot, TriangleElement.shape_function, p1_shape_fn,
    gaussTableOrder2]

/-- Claim C2 (amended): the convection assembler forms the combined
quadrature weight from the signed Jacobian determinant, w = det(J) *
quadrature_weight / 2, with no absolute value; consequently for a degree one
element an orientation reversal, swapping two vertices, negates the Jacobian
determinant, so the combined weight of the reversed element is the negation
of the original weight rather than equal to it. -/
theorem conv_weight_signed_det (p0 p1 p2 cc : Point) (jd wts : List ℚ) (q : ℕ)
    (hq : q < jd.length) (hq2 : q < wts.length) :
    (wxarea jd wts).getD q 0 = jd.getD q 0 * wts.getD q 0 / 2 ∧
    (isomapAt ⟨1, 3, 2⟩ [p0, p2, p1] cc).2.2 =
      -(isomapAt ⟨1, 3, 2⟩ [p0, p1, p2] cc).2.2 := by
  constructor
  · exact getD_zipWith (fun d w => d * w / 2) jd wts q 0 0 0 hq hq2
  · simp [isomapAt, TriangleElement.shape_function, p1_shape_fn, dot]
    ring

/-- Witness for claim C2 (amended), at the unit right triangle and its
orientation reversed copy, quadrature index 0. -/
theorem conv_weight_signed_det_witness :
    (wxarea [(1 : ℚ)] [(1 : ℚ)/2]).getD 0 0 =
      [(1 : ℚ)].getD 0 0 * [(1 : ℚ)/2].getD 0 0 / 2 ∧
    (isomapAt ⟨1, 3, 2⟩ [(0, 0), (0, 1), (1, 0)] ((1:ℚ)/2, (0:ℚ))).2.2 =
      -(isomapAt ⟨1, 3, 2⟩ [(0, 0), (1, 0), (0, 1)] ((1:ℚ)/2, (0:ℚ))).2.2 :=
  conv_weight_signed_det (0, 0) (1, 0) (0, 1) (1/2, 0) [1] [1/2] 0
    (by simp) (by simp)

/-- Claim C6: orientate_element_indices returns the elements unchanged for
element_dim 3; for element_dim 6 it maps each element row [v0, v1, v2, m0,
m1, m2] given in the P2 node ordering to the boundary path order [v0, m2, v1,
m0, v2, m1], i.e. it places the original indices at positions 0, 5, 1, 3, 2,
4; for every other element_dim it fails with the unsupported element
error. -/
theorem orientate_element_indices_spec (e : TriangleElement) (m : Mesh) :
    (e.element_dim = 3 → e.orientate_element_indices m = .ok m.elements) ∧
    (e.element_dim = 6 →
      ∀ q v0 v1 v2 m0 m1 m2, q < m.elements.length →
        m.elements.getD q [] = [v0, v1, v2, m0, m1, m2] →
        ∃ out, e.orientate_element_indices m = .ok out ∧
          out.length = m.elements.length ∧
          out.getD q [] = [v0, m2, v1, m0, v2, m1]) ∧
    (e.element_dim ≠ 3 → e.element_dim ≠ 6 →
      ∃ msg, e.orientate_element_indices m = .error msg) := by
  refine ⟨fun h3 => ?_, fun h6 q v0 v1 v2 m0 m1 m2 hq hrow => ?_, fun h3 h6 => ?_⟩
  · simp [TriangleElement.orientate_element_indices, h3]
  · have h3 : e.element_dim ≠ 3 := by omega
    have hout : e.orientate_element_indices m = .ok (m.elements.map (fun el =>
        [el.getD 0 0, el.getD 5 0, el.getD 1 0, el.getD 3 0, el.getD 2 0, el.getD 4 0])) := by
      simp [TriangleElement.orientate_element_indices, h3, h6]
    refine ⟨_, hout, by simp, ?_⟩
    rw [getD_map_of_lt _ m.elements q hq [], hrow]
    simp [List.getD]
  · exact ⟨"Only linear and quadratic elements currently implemented.",
      by simp [TriangleElement.orientate_element_indices, h3, h6]⟩

/-- Witness for claim C6: the three branches at concrete meshes, with a
degree one element, a degree two element and an element of width 7. -/
theorem orientate_element_indices_spec_witness :
    TriangleElement.orientate_element_indices ⟨1, 3, 2⟩ ⟨[], [[0, 1, 2]]⟩ =
      .ok [[0, 1, 2]] ∧
    (∃ out, TriangleElement.orientate_element_indices ⟨2, 6, 4⟩
        ⟨[], [[10, 11, 12, 13, 14, 15]]⟩ = .ok out ∧
      out.length = 1 ∧ out.getD 0 [] = [10, 15, 11, 13, 12, 14]) ∧
    (∃ msg, TriangleElement.orientate_element_indices ⟨0, 7, 0⟩ ⟨[], [[0, 1, 2]]⟩ =
      .error msg) :=
  ⟨(orientate_element_indices_spec ⟨1, 3, 2⟩ ⟨[], [[0, 1, 2]]⟩).1 rfl,
   (orientate_element_indices_spec ⟨2, 6, 4⟩ ⟨[], [[10, 11, 12, 13, 14, 15]]⟩).2.1
     rfl 0 10 11 12 13 14 15 (by decide) rfl,
   (orientate_element_indices_spec ⟨0, 7, 0⟩ ⟨[], [[0, 1, 2]]⟩).2.2
     (by decide) (by decide)⟩

/-- Claim C8: composing a mesh with a reference element fails with the shape
mismatch error whenever the last axis width of mesh.elements differs from the
element_dim of the reference element, and it fails before any numerical work:
the failing result is identical for every preconditioner builder, so the
preconditioning matrix assembly is never reached. -/
theorem mesh_provider_shape_check_eager (mesh : Mesh) (re : TriangleElement)
    (pad : ℤ) (rp : Bool) (f g : Mesh → TriangleElement → List (List ℚ))
    (h : mesh.elements_width ≠ re.element_dim) :
    (∃ msg, MeshProvider.init mesh re pad rp f = .error msg) ∧
    MeshProvider.init mesh re pad rp f = MeshProvider.init mesh re pad rp g := by
  constructor
  · exact ⟨"mesh.elements shape does not match reference_element.element_dim",
      by simp [MeshProvider.init, h]⟩
  · simp [MeshProvider.init, h]

/-- Witness for claim C8: a single element mesh of width 4 composed with the
degree one element of element_dim 3, under two different preconditioner
builders. -/
theorem mesh_provider_shape_check_eager_witness :
    (∃ msg, MeshProvider.init ⟨[], [[0, 1, 2, 3]]⟩ ⟨1, 3, 2⟩ 0 true
      (fun _ _ => []) = .error msg) ∧
    MeshProvider.init ⟨[], [[0, 1, 2, 3]]⟩ ⟨1, 3, 2⟩ 0 true (fun _ _ => []) =
      MeshProvider.init ⟨[], [[0, 1, 2, 3]]⟩ ⟨1, 3, 2⟩ 0 true (fun _ _ => [[5]]) :=
  mesh_provider_shape_check_eager ⟨[], [[0, 1, 2, 3]]⟩ ⟨1, 3, 2⟩ 0 true
    (fun _ _ => []) (fun _ _ => [[5]]) (by decide)

/-- Claim C10: MeshProvider.call ignores its inputs argument: any two inputs
produce the same output, and that output is a function of the stored mesh,
the return_precond_matrix flag and the stored preconditioning matrix alone,
all fixed at construction time. -/
theorem mesh_provider_call_input_independent (p : MeshProvider) (i j : List ℚ) :
    p.call i = p.call j ∧
    p.call i = (if p.return_precond_matrix then
      MeshProviderOutput.withPrecond p.mesh.get_tensor_repr p.precond_matrix
    else MeshProviderOutput.reprOnly p.mesh.get_tensor_repr) :=
  ⟨rfl, rfl⟩

/-- Claim C9: the quadrature rule succeeds exactly for orders 2 and 4,
returning the fixed tables, which have one weight per node, weights summing
to one (the area convention of spec section 3) and nodes lying inside the
canonical triangle with vertices (0,0), (1,0), (0,1); every other order fails
with the unsupported order error. -/
theorem gauss_quad_spec :
    (∀ o : ℕ, (∃ t, gauss_quad_nodes_and_weights o = .ok t) ↔ o = 2 ∨ o = 4) ∧
    gauss_quad_nodes_and_weights 2 = .ok gaussTableOrder2 ∧
    gauss_quad_nodes_and_weights 4 = .ok gaussTableOrder4 ∧
    (gaussTableOrder2.1.length = gaussTableOrder2.2.length ∧
      gaussTableOrder2.1.sum = 1 ∧
      ∀ p ∈ gaussTableOrder2.2, 0 ≤ p.1 ∧ 0 ≤ p.2 ∧ p.1 + p.2 ≤ 1) ∧
    (gaussTableOrder4.1.length = gaussTableOrder4.2.length ∧
      gaussTableOrder4.1.sum = 1 ∧
      ∀ p ∈ gaussTableOrder4.2, 0 ≤ p.1 ∧ 0 ≤ p.2 ∧ p.1 + p.2 ≤ 1) := by
  refine ⟨fun o => ?_, rfl, rfl,
    ⟨rfl, by norm_num [gaussTableOrder2], fun p hp => ?_⟩,
    ⟨rfl, by norm_num [gaussTableOrder4], fun p hp => ?_⟩⟩
  · unfold gauss_quad_nodes_and_weights
    split_ifs with h1 h2
    · simp [h1]
    · simp [h2]
    · simp [h1, h2]
  · simp only [gaussTableOrder2, List.mem_cons, List.not_mem_nil, or_false] at hp
    rcases hp with rfl | rfl | rfl <;> norm_num
  · simp only [gaussTableOrder4, List.mem_cons, List.not_mem_nil, or_false] at hp
    rcases hp with rfl | rfl | rfl | rfl <;> norm_num

/-- Witness for claim C9: order 2 succeeds and the first order 2 node lies in
the canonical triangle. -/
theorem gauss_quad_spec_witness :
    (∃ t, gauss_quad_nodes_and_weights 2 = .ok t) ∧
    (0 ≤ ((1 : ℚ)/2) ∧ 0 ≤ (0 : ℚ) ∧ (1 : ℚ)/2 + 0 ≤ 1) :=
  ⟨(gauss_quad_spec.1 2).mpr (Or.inl rfl),
   gauss_quad_spec.2.2.2.1.2.2 (1/2, 0) (by norm_num [gaussTableOrder2])⟩

/-- Claim C4: for every validly constructed element, every node list of
length element_dim and every batch of canonical coordinates, isomap returns
the shape values, the Jacobian determinant and the pushforward physical
gradients exactly as spec section 4.3 states, at every coordinate index. -/
theorem isomap_matches_spec (d : ℕ) (e : TriangleElement)
    (he : TriangleElement.init d = .ok e) (nodes : List Point)
    (hn : nodes.length = e.element_dim) (ccs : List Point) (q : ℕ)
    (hq : q < ccs.length) : IsomapSpecAt e nodes ccs q := by
  have hlen : ∀ r s : ℚ, (e.shape_function r s).2.1.length = nodes.length ∧
      (e.shape_function r s).2.2.length = nodes.length := by
    rcases init_inv d e he with ⟨_, rfl⟩ | ⟨_, rfl⟩ <;>
      (intro r s; constructor <;>
        simp [TriangleElement.shape_function, p1_shape_fn, p2_shape_fn, hn])
  obtain ⟨f1, f2, f3⟩ :=
    isomapAt_formulas e nodes (ccs.getD q (0, 0)) (hlen _ _).1 (hlen _ _).2
  obtain ⟨c1, c2, c3, c4, c5⟩ := isomap_components e nodes ccs q hq
  simp only [IsomapSpecAt]
  refine ⟨?_, c2, ?_, fun i hi => ⟨?_, ?_⟩⟩
  · rw [c1, f1]
  · rw [c5, f2]
  · rw [c3]; exact (f3 i hi).1
  · rw [c4]; exact (f3 i hi).2

/-- Witness for claim C4: the degree one element on the unit right triangle
at the first order 2 quadrature node. -/
theorem isomap_matches_spec_witness :
    IsomapSpecAt ⟨1, 3, 2⟩ [(0, 0), (1, 0), (0, 1)] [(1/2, 0)] 0 :=
  isomap_matches_spec 1 ⟨1, 3, 2⟩ rfl [(0, 0), (1, 0), (0, 1)] rfl [(1/2, 0)] 0
    (by decide)

theorem get_quadrature_nodes_ok (e : TriangleElement) (m : Mesh)
    (wn : List ℚ × List Point)
    (hg : gauss_quad_nodes_and_weights e.quadrature_order = .ok wn)
    (hvals : ∀ r s : ℚ, (e.shape_function r s).1.length = e.element_dim)
    (hrow : ∀ el ∈ m.elements, el.length = e.element_dim) :
    QuadratureNodesSpec e m := by
  have hout : e.get_quadrature_nodes m = .ok (m.elements.map (fun row =>
      wn.2.map (fun qn =>
        ((List.zipWith (fun v p => v * p.1) (e.shape_function qn.1 qn.2).1
            (row.map (fun i => m.nodes.getD i (0, 0)))).sum,
         (List.zipWith (fun v p => v * p.2) (e.shape_function qn.1 qn.2).1
            (row.map (fun i => m.nodes.getD i (0, 0)))).sum)))) := by
    unfold TriangleElement.get_quadrature_nodes
    rw [hg]
    simp only [gather, List.map_map]
    rfl
  simp only [QuadratureNodesSpec]
  refine ⟨wn, hg, _, hout, by simp [Mesh.n_elements], fun el hel => ?_⟩
  have hrowmem : m.elements.getD el [] ∈ m.elements := by
    rw [List.getD_eq_getElem _ _ hel]
    exact List.getElem_mem _
  have hrl : (m.elements.getD el []).length = e.element_dim := hrow _ hrowmem
  have houtel := getD_map_of_lt (fun row =>
      wn.2.map (fun qn =>
        ((List.zipWith (fun v p => v * p.1) (e.shape_function qn.1 qn.2).1
            (row.map (fun i => m.nodes.getD i (0, 0)))).sum,
         (List.zipWith (fun v p => v * p.2) (e.shape_function qn.1 qn.2).1
            (row.map (fun i => m.nodes.getD i (0, 0)))).sum))) m.elements el hel [] []
  refine ⟨?_, fun q hq => ?_⟩
  · rw [houtel]; simp
  · rw [houtel]
    rw [getD_map_of_lt _ wn.2 q hq (0, 0)]
    have hmin : min (e.shape_function (wn.2.getD q (0, 0)).1 (wn.2.getD q (0, 0)).2).1.length
        ((m.elements.getD el []).map (fun i => m.nodes.getD i (0, 0))).length =
        (m.elements.getD el []).length := by
      rw [hvals, List.length_map, hrl]
      exact min_self _
    refine Prod.ext ?_ ?_ <;> dsimp only
    · rw [sum_zipWith (fun v p => v * p.1) 0 ((0 : ℚ), (0 : ℚ)), hmin]
      refine Finset.sum_congr rfl (fun k hk => ?_)
      rw [getD_map_of_lt _ (m.elements.getD el []) k (Finset.mem_range.mp hk) 0]
    · rw [sum_zipWith (fun v p => v * p.2) 0 ((0 : ℚ), (0 : ℚ)), hmin]
      refine Finset.sum_congr rfl (fun k hk => ?_)
      rw [getD_map_of_lt _ (m.elements.getD el []) k (Finset.mem_range.mp hk) 0]

/-- Claim C7: for every mesh whose elements have the element width of the
reference element and index validly into its nodes, get_quadrature_nodes
returns, for each element and each canonical quadrature node, the weighted
sum of the gathered element node coordinates under the shape values at that
node, with one row per element and one 2-D point per quadrature node. -/
theorem get_quadrature_nodes_spec (d : ℕ) (e : TriangleElement)
    (he : TriangleElement.init d = .ok e) (m : Mesh)
    (hrow : ∀ el ∈ m.elements, el.length = e.element_dim)
    (hvalid : ∀ el ∈ m.elements, ∀ i ∈ el, i < m.nodes.length) :
    QuadratureNodesSpec e m := by
  have _ := hvalid
  rcases init_inv d e he with ⟨_, rfl⟩ | ⟨_, rfl⟩
  · exact get_quadrature_nodes_ok _ m gaussTableOrder2 rfl (fun r s => rfl) hrow
  · exact get_quadrature_nodes_ok _ m gaussTableOrder4 rfl (fun r s => rfl) hrow

/-- Witness for claim C7: the degree one element on the single element unit
right triangle mesh. -/
theorem get_quadrature_nodes_spec_witness :
    QuadratureNodesSpec ⟨1, 3, 2⟩ ⟨[(0, 0), (1, 0), (0, 1)], [[0, 1, 2]]⟩ :=
  get_quadrature_nodes_spec 1 ⟨1, 3, 2⟩ rfl ⟨[(0, 0), (1, 0), (0, 1)], [[0, 1, 2]]⟩
    (by decide) (by decide)

end Tenfem
